import Mathlib

/-!
# Verification of the Verilator counter test harness

This file embeds `src/cpp/verilator_tests/counter.cc` (the gtest test case
`CounterTest.count16`) in Lean 4 and proves the properties stated about it.

The test harness drives a device-under-test handle `VCounter`, generated by
an external hardware compiler from the repository's counter circuit.  The
generated model itself is not part of the C++ sources, so its behaviour is
modelled from the specification: a 3-bit wraparound counter with a
synchronous reset to 0, clocked on the rising edge of `clock`, whose
register value is exposed as `io_out`.

The harness itself (`clock_step`, the reset loop, the functional loop, the
logical-time bookkeeping of `VerilatedContext`) is translated directly from
the C++ source.
-/

/-- Modelled from the spec: the device-under-test handle `VCounter`
(the generated simulation model of the 3-bit wraparound counter is not in
the C++ sources).  Fields are the named signal fields `clock`, `reset`,
`io_out` plus the internal last-seen clock level used for rising-edge
detection during `eval`. -/
structure VCounter where
  clock : Nat
  reset : Nat
  io_out : Nat
  lastClock : Nat
deriving DecidableEq, Repr

/-- Modelled from the spec: one evaluation (`dut->eval()`) of the generated
counter model.  On a rising clock edge the 3-bit counter register updates:
it resets to 0 when `reset` is asserted, otherwise it increments modulo
`1 <<< 3 = 8`.  With no rising edge the register holds its value.  The
register is exposed as `io_out`. -/
def VCounter.eval (d : VCounter) : VCounter :=
  let nextOut :=
    if d.clock = 1 ∧ d.lastClock ≠ 1 then
      if d.reset = 1 then 0 else (d.io_out + 1) % 8
    else d.io_out
  { d with io_out := nextOut, lastClock := d.clock }

/-- Modelled from the spec: a freshly constructed device handle
(`std::make_unique<VCounter>()`); all signal fields start at 0. -/
def VCounter.new : VCounter := ⟨0, 0, 0, 0⟩

/-- The state owned by the test case: the simulation context's logical time
counter (`VerilatedContext`, advanced by `contextp->timeInc(1)`) together
with the device handle. -/
structure SimState where
  time : Nat
  dut : VCounter
deriving DecidableEq, Repr

/-- The `clock_step` lambda of `counter.cc`:
`for(int i=0;i<=1;++i){ contextp->timeInc(1); dut->clock = i; dut->eval(); }`. -/
def clock_step (s : SimState) : SimState :=
  (List.range 2).foldl
    (fun s i =>
      { time := s.time + 1, dut := VCounter.eval { s.dut with clock := i } })
    s

/-- The reset phase of `counter.cc`:
`dut->reset = 1; for(int i=0;i<10;++i) clock_step();`. -/
def resetPhase (s : SimState) : SimState :=
  clock_step^[10] { s with dut := { s.dut with reset := 1 } }

/-- One iteration of the functional loop of `counter.cc`:
`clock_step(); dut->eval();` (the `EXPECT_EQ` reads `io_out` afterwards). -/
def funcStep (s : SimState) : SimState :=
  let s1 := clock_step s
  { s1 with dut := VCounter.eval s1.dut }

/-- The state at the start of the test, as a function of the initial device
state: construct the context at time 0, run the reset phase, then de-assert
reset (`dut->reset = 0`), which is where the functional phase begins. -/
def runStart (d0 : VCounter) : SimState :=
  let s := resetPhase { time := 0, dut := d0 }
  { s with dut := { s.dut with reset := 0 } }

/-- The io_out trajectory of the functional phase: the value compared by
`EXPECT_EQ` at each step index 1..16, for a run whose device started in
state `d0`. -/
def runTraj (d0 : VCounter) : List Nat :=
  (List.range 16).map (fun k => (funcStep^[k + 1] (runStart d0)).dut.io_out)

/-- The observable API calls issued by the body of `clock_step`:
a time advance (`contextp->timeInc(1)`), a write to the clock input
(`dut->clock = i`), or an evaluation (`dut->eval()`). -/
inductive Ev where
  | timeInc (n : Nat)
  | setClock (v : Nat)
  | evalCall
deriving DecidableEq, Repr

/-- The sequence of API calls one invocation of the `clock_step` lambda
performs, read off its loop `for(int i=0;i<=1;++i){...}`. -/
def clock_step_events : List Ev :=
  (List.range 2).foldl
    (fun acc i => acc ++ [Ev.timeInc 1, Ev.setClock i, Ev.evalCall]) []

/-- Interpreting one API call on the test state. -/
def applyEv (s : SimState) : Ev → SimState
  | .timeInc n => { s with time := s.time + n }
  | .setClock v => { s with dut := { s.dut with clock := v } }
  | .evalCall => { s with dut := VCounter.eval s.dut }

/-- Modelled from the spec: the test-runner's bookkeeping for one test case
(the gtest framework is not in the sources): how many assertions were
executed and which step indices were recorded as failures. -/
structure TestRun where
  checks : Nat
  failures : List Nat
deriving DecidableEq, Repr

/-- Modelled from the spec: `EXPECT_EQ(actual, expected)` at step `i` is a
non-fatal assertion: it records a failure for the test case on a mismatch
and control flow continues either way. -/
def expectEq (r : TestRun) (i : Nat) (actual expected : Nat) : TestRun :=
  { checks := r.checks + 1,
    failures := if actual = expected then r.failures else r.failures ++ [i] }

/-- The functional loop of `counter.cc`
(`for(int i=1;i<=16;++i){ clock_step(); dut->eval(); EXPECT_EQ(int(dut->io_out), i%(1<<3)); }`),
generalized over the device model: `stepEval` is the combined effect of
`clock_step(); dut->eval();` on a device state of type `α` and `out` reads
`io_out`.  Returns the final device state and the test-runner record. -/
def funcLoop {α : Type} (stepEval : α → α) (out : α → Nat) (n : Nat)
    (d : α) (r : TestRun) : α × TestRun :=
  (List.range n).foldl
    (fun p k =>
      let d2 := stepEval p.1
      (d2, expectEq p.2 (k + 1) (out d2) ((k + 1) % 8))) (d, r)

/-- The test state together with the waveform samples written so far, for
the build with `WAVEON` defined (the trace sink `VerilatedVcdC` is not in
the sources; per the spec it records one sample per half-cycle tagged with
the current logical time and does not touch the device). -/
structure WaveSim where
  sim : SimState
  wave : List Nat
deriving DecidableEq, Repr

/-- `clock_step` as compiled with `WAVEON`: each half-cycle additionally
executes `tfp.get()->dump(contextp->time())` right after `dut->eval()`. -/
def clock_stepW (s : WaveSim) : WaveSim :=
  (List.range 2).foldl
    (fun s i =>
      let sim : SimState :=
        { time := s.sim.time + 1,
          dut := VCounter.eval { s.sim.dut with clock := i } }
      { sim := sim, wave := s.wave ++ [sim.time] })
    s

/-- The reset phase as compiled with `WAVEON`. -/
def resetPhaseW (s : WaveSim) : WaveSim :=
  clock_stepW^[10] { s with sim := { s.sim with dut := { s.sim.dut with reset := 1 } } }

/-- One functional-loop iteration as compiled with `WAVEON`: the extra
`dut->eval()` on line 46 is outside the lambda and emits no sample. -/
def funcStepW (s : WaveSim) : WaveSim :=
  let s1 := clock_stepW s
  { s1 with sim := { s1.sim with dut := VCounter.eval s1.sim.dut } }

/-- Functional-phase start state of the `WAVEON` build: the trace file is
opened (empty sample list) before the reset phase. -/
def runStartW (d0 : VCounter) : WaveSim :=
  let s := resetPhaseW { sim := { time := 0, dut := d0 }, wave := [] }
  { s with sim := { s.sim with dut := { s.sim.dut with reset := 0 } } }

/-- The io_out trajectory of the functional phase in the `WAVEON` build. -/
def runTrajW (d0 : VCounter) : List Nat :=
  (List.range 16).map (fun k => (funcStepW^[k + 1] (runStartW d0)).sim.dut.io_out)

section Lemmas

/-- Unfolding `clock_step`: two half-cycles, clock set to 0 then 1, one
time unit before each evaluation. -/
lemma clock_step_eq (s : SimState) :
    clock_step s =
      { time := s.time + 1 + 1,
        dut := VCounter.eval
          { VCounter.eval { s.dut with clock := 0 } with clock := 1 } } := rfl

/-- One clock step with reset asserted forces the device into the settled
reset state `⟨1, 1, 0, 1⟩`, whatever the prior device state. -/
lemma clock_step_reset (t : Nat) (d : VCounter) (h : d.reset = 1) :
    clock_step ⟨t, d⟩ = ⟨t + 2, ⟨1, 1, 0, 1⟩⟩ := by
  cases d
  simp_all [clock_step_eq, VCounter.eval]

/-- Iterating clock steps with reset asserted: after `n + 1` steps the
device sits in the settled reset state and time has advanced by
`2 * (n + 1)`. -/
lemma clock_step_reset_iter (n t : Nat) (d : VCounter) (h : d.reset = 1) :
    clock_step^[n + 1] ⟨t, d⟩ = ⟨t + 2 * (n + 1), ⟨1, 1, 0, 1⟩⟩ := by
  induction n generalizing t d with
  | zero => simpa using clock_step_reset t d h
  | succ m ih =>
      rw [Function.iterate_succ_apply, clock_step_reset t d h]
      rw [ih _ ⟨1, 1, 0, 1⟩ rfl]
      congr 1
      omega

/-- The reset phase from any prior state lands in the settled reset state,
20 time units later. -/
lemma resetPhase_eq (t : Nat) (d : VCounter) :
    resetPhase ⟨t, d⟩ = ⟨t + 20, ⟨1, 1, 0, 1⟩⟩ := by
  unfold resetPhase
  exact clock_step_reset_iter 9 t { d with reset := 1 } rfl

/-- The functional-phase start state is the same for every initial device
state: time 20, device settled at 0 with reset de-asserted. -/
lemma runStart_eq (d0 : VCounter) : runStart d0 = ⟨20, ⟨1, 0, 0, 1⟩⟩ := by
  unfold runStart
  rw [resetPhase_eq]

/-- One functional step from a settled state counts up modulo 8 and
advances time by 2 (the extra evaluation adds nothing). -/
lemma funcStep_settled (t k : Nat) :
    funcStep ⟨t, ⟨1, 0, k, 1⟩⟩ = ⟨t + 2, ⟨1, 0, (k + 1) % 8, 1⟩⟩ := by
  simp [funcStep, clock_step_eq, VCounter.eval]

/-- Iterating functional steps from a settled state with register value
`k % 8`: the register follows `(k + i) % 8` and time advances by `2 * i`. -/
lemma funcStep_iter (i t k : Nat) :
    funcStep^[i] ⟨t, ⟨1, 0, k % 8, 1⟩⟩ =
      ⟨t + 2 * i, ⟨1, 0, (k + i) % 8, 1⟩⟩ := by
  induction i generalizing t k with
  | zero => simp
  | succ m ih =>
      rw [Function.iterate_succ_apply, funcStep_settled]
      have h8 : (k % 8 + 1) % 8 = (k + 1) % 8 := by
        rw [Nat.add_mod k 1 8]
      rw [h8, ih (t + 2) (k + 1)]
      have ht : t + 2 + 2 * m = t + 2 * (m + 1) := by omega
      have hk : (k + 1 + m) % 8 = (k + (m + 1)) % 8 := by omega
      rw [ht, hk]

/-- The state after functional step `i` of the actual run. -/
lemma stepState_eq (d0 : VCounter) (i : Nat) :
    funcStep^[i] (runStart d0) = ⟨20 + 2 * i, ⟨1, 0, i % 8, 1⟩⟩ := by
  rw [runStart_eq]
  have h0 : (0 : Nat) % 8 = 0 % 8 := rfl
  have := funcStep_iter i 20 0
  simpa using this

/-- One iteration of the generalized functional loop. -/
lemma funcLoop_succ {α : Type} (se : α → α) (out : α → Nat) (m : Nat)
    (d : α) (r : TestRun) :
    funcLoop se out (m + 1) d r =
      (se (funcLoop se out m d r).1,
        expectEq (funcLoop se out m d r).2 (m + 1)
          (out (se (funcLoop se out m d r).1)) ((m + 1) % 8)) := by
  unfold funcLoop
  rw [List.range_succ, List.foldl_append]
  rfl

/-- The generalized functional loop steps the device `n` times, whatever
the check outcomes: the checks do not influence control flow. -/
lemma funcLoop_fst {α : Type} (se : α → α) (out : α → Nat) (n : Nat)
    (d : α) (r : TestRun) :
    (funcLoop se out n d r).1 = se^[n] d := by
  induction n with
  | zero => simp [funcLoop]
  | succ m ih =>
      rw [funcLoop_succ, ih]
      exact (Function.iterate_succ_apply' se m d).symm

/-- The generalized functional loop executes one check per iteration,
whatever the check outcomes. -/
lemma funcLoop_checks {α : Type} (se : α → α) (out : α → Nat) (n : Nat)
    (d : α) (r : TestRun) :
    (funcLoop se out n d r).2.checks = r.checks + n := by
  induction n with
  | zero => simp [funcLoop]
  | succ m ih =>
      rw [funcLoop_succ]
      simp only [expectEq]
      rw [ih]
      omega

/-- A mismatching step index inside the loop range is recorded in the
test-runner's failure list. -/
lemma funcLoop_mem_failures {α : Type} (se : α → α) (out : α → Nat) (n : Nat)
    (d : α) (r : TestRun) (i : Nat) (h1 : 1 ≤ i) (h2 : i ≤ n)
    (h3 : ¬ out (se^[i] d) = i % 8) :
    i ∈ (funcLoop se out n d r).2.failures := by
  induction n with
  | zero => omega
  | succ m ih =>
      rw [funcLoop_succ]
      simp only [expectEq]
      by_cases hi : i = m + 1
      · subst hi
        rw [funcLoop_fst]
        rw [if_neg (by rw [Function.iterate_succ_apply' se m d] at h3; exact h3)]
        exact List.mem_append_right _ (List.mem_singleton.mpr rfl)
      · have hmem := ih (by omega)
        by_cases hc :
            out (se (funcLoop se out m d r).1) = (m + 1) % 8
        · rw [if_pos hc]; exact hmem
        · rw [if_neg hc]; exact List.mem_append_left _ hmem

/-- The `WAVEON` clock step acts on the test state exactly as the plain
clock step. -/
lemma clock_stepW_sim (s : WaveSim) : (clock_stepW s).sim = clock_step s.sim := rfl

/-- The `WAVEON` functional-loop iteration acts on the test state exactly
as the plain one. -/
lemma funcStepW_sim (s : WaveSim) : (funcStepW s).sim = funcStep s.sim := rfl

/-- Iterated `WAVEON` clock steps project to iterated plain clock steps. -/
lemma clock_stepW_iter_sim (n : Nat) (s : WaveSim) :
    (clock_stepW^[n] s).sim = clock_step^[n] s.sim := by
  induction n generalizing s with
  | zero => rfl
  | succ m ih =>
      rw [Function.iterate_succ_apply, Function.iterate_succ_apply, ih,
        clock_stepW_sim]

/-- Iterated `WAVEON` functional steps project to iterated plain ones. -/
lemma funcStepW_iter_sim (n : Nat) (s : WaveSim) :
    (funcStepW^[n] s).sim = funcStep^[n] s.sim := by
  induction n generalizing s with
  | zero => rfl
  | succ m ih =>
      rw [Function.iterate_succ_apply, Function.iterate_succ_apply, ih,
        funcStepW_sim]

/-- The `WAVEON` reset phase projects to the plain reset phase. -/
lemma resetPhaseW_sim (s : WaveSim) : (resetPhaseW s).sim = resetPhase s.sim := by
  unfold resetPhaseW resetPhase
  rw [clock_stepW_iter_sim]

/-- The `WAVEON` functional-phase start state projects to the plain one. -/
lemma runStartW_sim (d0 : VCounter) : (runStartW d0).sim = runStart d0 := by
  unfold runStartW runStart
  simp [resetPhaseW_sim]

/-- The `WAVEON` build observes the same io_out trajectory. -/
lemma runTrajW_eq (d0 : VCounter) : runTrajW d0 = runTraj d0 := by
  unfold runTrajW runTraj
  simp only [funcStepW_iter_sim, runStartW_sim]

end Lemmas

set_option linter.unusedVariables false in
/-- C1: for every step index i in [1, 16] of the functional phase, after
the reset phase and i clock steps (each followed by one extra evaluation),
the device's io_out output equals i mod 8: every EXPECT_EQ in the
functional loop holds. -/
theorem C1_functional_outputs (i : Nat) (h1 : 1 ≤ i) (h2 : i ≤ 16) :
    (funcStep^[i] (runStart VCounter.new)).dut.io_out = i % 8 := by
  rw [stepState_eq]

/-- Witness for C1 at step index 16. -/
theorem C1_witness :
    1 ≤ 16 ∧ 16 ≤ 16 ∧
      (funcStep^[16] (runStart VCounter.new)).dut.io_out = 16 % 8 :=
  ⟨by decide, by decide, C1_functional_outputs 16 (by decide) (by decide)⟩

/-- C2: every call of the clock-step procedure performs exactly two time
advances and exactly two evaluations, sets the clock input to 0 for the
first half-cycle and 1 for the second, and increments logical time by
exactly one unit before each of the two evaluations; interpreting that
call sequence reproduces clock_step. -/
theorem C2_clock_step_contract :
    clock_step_events =
      [Ev.timeInc 1, Ev.setClock 0, Ev.evalCall,
        Ev.timeInc 1, Ev.setClock 1, Ev.evalCall] ∧
    clock_step_events.count Ev.evalCall = 2 ∧
    (clock_step_events.filter fun e =>
      match e with
      | Ev.timeInc _ => true
      | _ => false).length = 2 ∧
    (clock_step_events.filter fun e =>
      match e with
      | Ev.timeInc 1 => true
      | _ => false).length = 2 ∧
    (∀ s : SimState, clock_step_events.foldl applyEv s = clock_step s) :=
  ⟨rfl, by decide, by decide, by decide, fun s => rfl⟩

/-- C3: the reset phase asserts the reset input and then performs exactly
10 clock steps with reset held asserted throughout, with no precondition
on the prior device state; its postcondition is that the counter register
(and hence io_out) equals 0 when the functional phase begins. -/
theorem C3_reset_phase (t : Nat) (d0 : VCounter) :
    resetPhase ⟨t, d0⟩ = clock_step^[10] ⟨t, { d0 with reset := 1 }⟩ ∧
    (resetPhase ⟨t, d0⟩).dut.reset = 1 ∧
    (resetPhase ⟨t, d0⟩).dut.io_out = 0 ∧
    (runStart d0).dut.io_out = 0 := by
  refine ⟨rfl, ?_, ?_, ?_⟩ <;> simp [resetPhase_eq, runStart_eq]

/-- C4: for every number of clock steps performed after reset, including
counts beyond 16, the device's io_out output never exceeds 7. -/
theorem C4_output_bounded (d0 : VCounter) (n : Nat) :
    (funcStep^[n] (runStart d0)).dut.io_out ≤ 7 := by
  rw [stepState_eq]
  show n % 8 ≤ 7
  omega

/-- C5: for every prior device state, asserting the reset input and
performing at least 10 clock steps yields io_out = 0; applying the reset
phase twice in a row leaves the device in the same state as applying it
once. -/
theorem C5_reset_idempotent (t : Nat) (d : VCounter) (n : Nat)
    (h : 10 ≤ n) (s : SimState) :
    (clock_step^[n] ⟨t, { d with reset := 1 }⟩).dut.io_out = 0 ∧
    (resetPhase (resetPhase s)).dut = (resetPhase s).dut := by
  constructor
  · obtain ⟨m, rfl⟩ : ∃ m, n = m + 1 := ⟨n - 1, by omega⟩
    rw [clock_step_reset_iter m t _ rfl]
  · cases s with
    | mk time dut => rw [resetPhase_eq, resetPhase_eq]

/-- Witness for C5 at exactly 10 clock steps from a fresh device. -/
theorem C5_witness :
    10 ≤ 10 ∧
      ((clock_step^[10] ⟨0, { VCounter.new with reset := 1 }⟩).dut.io_out = 0 ∧
        (resetPhase (resetPhase ⟨0, VCounter.new⟩)).dut =
          (resetPhase ⟨0, VCounter.new⟩).dut) :=
  ⟨by decide, C5_reset_idempotent 0 VCounter.new 10 (by decide) ⟨0, VCounter.new⟩⟩

/-- C6: when the output at some functional step i differs from i mod 8,
the test case is marked failed (the failure record is nonempty) but the
remaining steps still execute and are each checked: 16 checks run and the
device is stepped all 16 times, for any device behaviour. -/
theorem C6_nonfatal_expectations (α : Type) (se : α → α) (out : α → Nat)
    (d : α) (i : Nat) (h1 : 1 ≤ i) (h2 : i ≤ 16)
    (h3 : ¬ out (se^[i] d) = i % 8) :
    (funcLoop se out 16 d ⟨0, []⟩).2.failures ≠ [] ∧
    (funcLoop se out 16 d ⟨0, []⟩).2.checks = 16 ∧
    (funcLoop se out 16 d ⟨0, []⟩).1 = se^[16] d := by
  refine ⟨?_, ?_, funcLoop_fst se out 16 d ⟨0, []⟩⟩
  · exact List.ne_nil_of_mem
      (funcLoop_mem_failures se out 16 d ⟨0, []⟩ i h1 h2 h3)
  · rw [funcLoop_checks]

/-- Witness for C6: a stuck device whose output is always 5 mismatches at
step 1, yet all 16 checks run and the device is stepped 16 times. -/
theorem C6_witness :
    1 ≤ 1 ∧ 1 ≤ 16 ∧
      ((funcLoop (fun n : Nat => n) (fun _ => 5) 16 0 ⟨0, []⟩).2.failures ≠ [] ∧
        (funcLoop (fun n : Nat => n) (fun _ => 5) 16 0 ⟨0, []⟩).2.checks = 16 ∧
        (funcLoop (fun n : Nat => n) (fun _ => 5) 16 0 ⟨0, []⟩).1 =
          (fun n : Nat => n)^[16] 0) :=
  ⟨by decide, by decide,
    C6_nonfatal_expectations Nat (fun n => n) (fun _ => 5) 0 1
      (by decide) (by decide) (by decide)⟩

/-- C7: the procedure is deterministic: running the identical
reset-then-16-step sequence on two freshly constructed devices produces
identical io_out trajectories, namely 1..7,0 twice. -/
theorem C7_deterministic (d1 d2 : VCounter)
    (h1 : d1 = VCounter.new) (h2 : d2 = VCounter.new) :
    runTraj d1 = runTraj d2 ∧
    runTraj d1 = [1, 2, 3, 4, 5, 6, 7, 0, 1, 2, 3, 4, 5, 6, 7, 0] := by
  subst h1
  subst h2
  exact ⟨rfl, by decide⟩

/-- Witness for C7 on two freshly constructed devices. -/
theorem C7_witness :
    VCounter.new = VCounter.new ∧
      (runTraj VCounter.new = runTraj VCounter.new ∧
        runTraj VCounter.new =
          [1, 2, 3, 4, 5, 6, 7, 0, 1, 2, 3, 4, 5, 6, 7, 0]) :=
  ⟨rfl, C7_deterministic VCounter.new VCounter.new rfl rfl⟩

/-- C8: enabling the compile-time-gated waveform tracing does not change
any io_out value: traced and untraced builds agree on the whole test state
at every point, so the assertion outcomes are identical; the traced clock
step emits exactly one sample per half-cycle tagged with the current
logical time. -/
theorem C8_trace_no_effect (d0 : VCounter) (s : WaveSim) :
    runTrajW d0 = runTraj d0 ∧
    (clock_stepW s).sim = clock_step s.sim ∧
    (clock_stepW s).wave = s.wave ++ [s.sim.time + 1, s.sim.time + 2] :=
  ⟨runTrajW_eq d0, clock_stepW_sim s, by
    show (s.wave ++ [s.sim.time + 1]) ++ [s.sim.time + 1 + 1] =
      s.wave ++ [s.sim.time + 1, s.sim.time + 2]
    rw [List.append_assoc]
    simp⟩

/-- C9: logical time is strictly monotonically increasing over the run:
each clock step adds exactly 2 time units, time equals 20 after the reset
phase and 20 + 2i after functional step i (52 at the end), and the extra
evaluation inside each functional step does not advance time. -/
theorem C9_time_accounting (s : SimState) (i : Nat) :
    (clock_step s).time = s.time + 2 ∧
    (funcStep s).time = (clock_step s).time ∧
    (resetPhase ⟨0, VCounter.new⟩).time = 20 ∧
    (funcStep^[i] (runStart VCounter.new)).time = 20 + 2 * i ∧
    (funcStep^[16] (runStart VCounter.new)).time = 52 ∧
    (funcStep^[i] (runStart VCounter.new)).time <
      (funcStep^[i + 1] (runStart VCounter.new)).time := by
  refine ⟨rfl, rfl, by rw [resetPhase_eq], by rw [stepState_eq], by decide, ?_⟩
  rw [stepState_eq, stepState_eq]
  show 20 + 2 * i < 20 + 2 * (i + 1)
  omega

/-- C10: the extra evaluation performed after each functional-phase clock
step, with all inputs unchanged, leaves the device unchanged, so the value
compared equals the value already produced by the clock step alone and
omitting the extra evaluation yields the same assertion outcomes. -/
theorem C10_extra_eval_noop (s : SimState) :
    VCounter.eval (clock_step s).dut = (clock_step s).dut ∧
    funcStep s = clock_step s :=
  ⟨rfl, rfl⟩
